import Mathlib

/-!
Verification development for the BrambleWars auction server (src/server-rust).

The repository contains two generations of the websocket stack:
* `main.rs` + `message_handlers.rs`, where the protobuf envelope's oneof field
  is called `message_type`;
* `websocket_handler.rs` + `message_handler.rs` + `auction_handler.rs`, where
  the envelope's oneof field is called `message` and additionally carries
  auction messages.

The protobuf-generated module `bramble` is produced by the build script and is
not part of src/; its message types are modelled here from how the source uses
them and from the spec's description of the wire envelope.  Sockets are
modelled by recording the list of (attempted) sends together with a boolean
saying whether sending succeeds; `Result<(), ()>` becomes `Except Unit Unit`.
-/

namespace BrambleWars

namespace bramble

/-- Modelled from the spec: the auction lifecycle enumeration
`{Pending, LotOpen, LotClosing, Completed, Cancelled}`; the generated protobuf
enum `AuctionState` is not under src/.  `Pending` is the first variant, hence
the `Default` (as used by `#[derive(Default)]` on `Auction` in lib.rs). -/
inductive AuctionState where
  | Pending
  | LotOpen
  | LotClosing
  | Completed
  | Cancelled
deriving DecidableEq

instance : Inhabited AuctionState := ⟨AuctionState.Pending⟩

/-- The protobuf echo message, as used by the handlers: a single string field
`message`. -/
structure EchoMessage where
  message : String
deriving DecidableEq

/-- The protobuf heartbeat message, as used by the handlers: string fields
`client_id` and `timestamp`. -/
structure HeartbeatMessage where
  client_id : String
  timestamp : String
deriving DecidableEq

/-- The protobuf host-auction action, as constructed in auction_handler.rs: a
single string field `auction_id`. -/
structure HostAuction where
  auction_id : String
deriving DecidableEq

/-- Modelled from the spec: the host-cancel action of the wire envelope
("Auction-message further wraps exactly one action: host-start, host-cancel,
place-bid ..."); its payload is not under src/, we give it the auction
identifier. -/
structure HostCancel where
  auction_id : String
deriving DecidableEq

/-- Modelled from the spec: the place-bid action, "place-bid (amount, target
lot)"; its payload is not under src/. -/
structure PlaceBid where
  lot : Nat
  amount : Nat
deriving DecidableEq

/-- The oneof `action` of the protobuf `Auction` message.  The `HostAuction`
constructor is the one matched in auction_handler.rs; the remaining actions
are modelled from the spec's envelope description (host-cancel, place-bid,
state-snapshot). -/
inductive Action where
  | HostAuction (h : HostAuction)
  | HostCancel (c : HostCancel)
  | PlaceBid (b : PlaceBid)
  | Snapshot
deriving DecidableEq

/-- The protobuf `Auction` message: an optional oneof `action`
(auction_handler.rs matches on `request.action`). -/
structure Auction where
  action : Option Action
deriving DecidableEq

/-- The oneof payload of the envelope in the `main.rs` stack, where the field
is called `message_type` and carries echo or heartbeat messages. -/
inductive MessageType where
  | EchoMessage (m : EchoMessage)
  | HeartbeatMessage (m : HeartbeatMessage)
deriving DecidableEq

/-- The envelope of the `main.rs` + `message_handlers.rs` stack: an optional
oneof field `message_type`. -/
structure Envelope where
  message_type : Option MessageType
deriving DecidableEq

/-- The oneof payload of the envelope in the `message_handler.rs` stack, where
the field is called `message` and additionally carries auction messages. -/
inductive Message where
  | EchoMessage (m : EchoMessage)
  | HeartbeatMessage (m : HeartbeatMessage)
  | Auction (a : Auction)
deriving DecidableEq

/-- The envelope of the `websocket_handler.rs` + `message_handler.rs` +
`auction_handler.rs` stack: an optional oneof field `message`. -/
structure EnvelopeMsg where
  message : Option Message
deriving DecidableEq

end bramble

/-- The `Lot` struct of lib.rs: an immutable boxed slice of item identifiers
and the current highest bid. -/
structure Lot where
  items : List Nat
  highest_bid : Nat
deriving DecidableEq

/-- The `Auction` struct of lib.rs. `host : uuid::Uuid` and
`current_countdown : Duration` are modelled as naturals. -/
structure Auction where
  host : Nat
  current_lot : Lot
  remaining_lots : List Lot
  current_countdown : Nat
  state : bramble.AuctionState
deriving DecidableEq

/-- The `ServerState` struct of lib.rs: the auction map (keyed by `u32`) and
the UUIDv7 generation context (modelled as a counter). -/
structure ServerState where
  auctions : List (Nat × Auction)
  uuid_context : Nat
deriving DecidableEq

/-- `echo_handler` of message_handlers.rs: builds an echo response whose
`message` is the request's `message`, wraps it in an envelope, encodes and
sends it; returns `Err(())` exactly when the socket send fails.  The returned
list records the attempted sends. -/
def echo_handler (sendOk : Bool) (request : bramble.EchoMessage) :
    List bramble.Envelope × Except Unit Unit :=
  let response : bramble.EchoMessage := { message := request.message }
  let response_envelope : bramble.Envelope :=
    { message_type := some (.EchoMessage response) }
  if sendOk then ([response_envelope], .ok ())
  else ([response_envelope], .error ())

/-- `heartbeat_handler` of message_handlers.rs: the response's `client_id` is
`"client 0"` when the request's `client_id` is empty and the request's
`client_id` otherwise; the response's `timestamp` is the constant
`"test timestamp"`.  Returns `Err(())` exactly when the socket send fails. -/
def heartbeat_handler (sendOk : Bool) (request : bramble.HeartbeatMessage) :
    List bramble.Envelope × Except Unit Unit :=
  let client_id := if request.client_id = "" then "client 0"
    else request.client_id
  let response : bramble.HeartbeatMessage :=
    { client_id := client_id, timestamp := "test timestamp" }
  let response_envelope : bramble.Envelope :=
    { message_type := some (.HeartbeatMessage response) }
  if sendOk then ([response_envelope], .ok ())
  else ([response_envelope], .error ())

/-- An inbound event of the receive loop of `handle_socket` in main.rs, after
transport decoding: a binary frame that decodes to an envelope, a binary frame
that fails protobuf decoding, a close frame, a non-binary non-close frame
(text/ping/pong), or a transport-level receive error. -/
inductive Frame where
  | binaryOk (e : bramble.Envelope)
  | binaryBad
  | close
  | nonBinary
  | recvError
deriving DecidableEq

/-- Whether the frame is a binary frame that fails to decode as an envelope at
all (the `Envelope::decode(..).expect(..)` failure case in main.rs). -/
def Frame.isDecodeFailure : Frame → Bool
  | .binaryBad => true
  | _ => false

/-- The outcome of one iteration of the receive loop in `handle_socket`
(main.rs): keep looping with the connection open, `return` from the loop
(terminating the connection), or panic (the `.expect` on a protobuf decode
failure, which kills the connection task). -/
inductive LoopOutcome where
  | continueOpen
  | terminate
  | crashed
deriving DecidableEq

/-- One iteration of the receive loop of `handle_socket` in main.rs: a
transport error returns; a binary frame is decoded with `.expect` (panicking
on failure) and dispatched on `message_type` — echo and heartbeat handlers
whose send failure makes the loop return, an absent `message_type` is logged
and dropped; a close frame is logged and the loop continues; any other frame
kind makes the loop return ("dropping client"). -/
def handle_frame (sendOk : Bool) : Frame → LoopOutcome × List bramble.Envelope
  | .binaryOk e =>
    match e.message_type with
    | some (.EchoMessage request) =>
      let h := echo_handler sendOk request
      (match h.2 with
       | .ok _ => LoopOutcome.continueOpen
       | .error _ => LoopOutcome.terminate, h.1)
    | some (.HeartbeatMessage request) =>
      let h := heartbeat_handler sendOk request
      (match h.2 with
       | .ok _ => LoopOutcome.continueOpen
       | .error _ => LoopOutcome.terminate, h.1)
    | none => (.continueOpen, [])
  | .binaryBad => (.crashed, [])
  | .close => (.continueOpen, [])
  | .nonBinary => (.terminate, [])
  | .recvError => (.terminate, [])

/-- The diagnostic dispatch of `handle_socket` in main.rs, with the process
state of lib.rs threaded through explicitly: neither `echo_handler` nor
`heartbeat_handler` receives any reference to `ServerState` (they take only
the socket and the request), so the state flows around the call unchanged. -/
def diagnostic_dispatch (st : ServerState) (sendOk : Bool)
    (m : bramble.MessageType) :
    ServerState × List bramble.Envelope × Except Unit Unit :=
  match m with
  | .EchoMessage request => (st, echo_handler sendOk request)
  | .HeartbeatMessage request => (st, heartbeat_handler sendOk request)

/-- `host_handler` of auction_handler.rs: ignores the request payload and
builds a response envelope wrapping `HostAuction { auction_id: "auction id" }`;
returns `Err(())` exactly when the socket send fails.  It touches no server
state (it receives none). -/
def host_handler (sendOk : Bool) (_host_auction : bramble.HostAuction) :
    List bramble.EnvelopeMsg × Except Unit Unit :=
  let auction_action : bramble.HostAuction := { auction_id := "auction id" }
  let auction_message : bramble.Auction :=
    { action := some (.HostAuction auction_action) }
  let envelope : bramble.EnvelopeMsg :=
    { message := some (.Auction auction_message) }
  if sendOk then ([envelope], .ok ())
  else ([envelope], .error ())

/-- The result of `auction_handler` in auction_handler.rs: either it returns
`Ok(())` having attempted the listed sends, or control reaches the `todo!()`
macro of the catch-all match arm, which panics. -/
inductive AuctionHandlerResult where
  | ok (sent : List bramble.EnvelopeMsg)
  | todoUnimplemented
deriving DecidableEq

/-- `auction_handler` of auction_handler.rs: matches `request.action`; a
`Some(HostAuction(..))` action is handled by `host_handler` (whose result is
discarded) and the handler returns `Ok(())`; every other action — including an
absent one — falls to the `_ => todo!()` arm and panics. -/
def auction_handler (sendOk : Bool) (request : bramble.Auction) :
    AuctionHandlerResult :=
  match request.action with
  | some (.HostAuction host_auction) =>
    .ok (host_handler sendOk host_auction).1
  | _ => .todoUnimplemented

/-- Modelled from the spec: the rejection reasons of the Bid Validator and
Auction Actor (§4.1, §7); no validator exists under src/. -/
inductive RejectReason where
  | AuctionNotOpen
  | BidTooLow
  | AuctionClosed
  | NotHost
deriving DecidableEq

/-- Modelled from the spec: the Bid Validator's verdict, "returns Accept or
Reject(reason)" (§4.1). -/
inductive BidDecision where
  | Accept
  | Reject (r : RejectReason)
deriving DecidableEq

/-- Modelled from the spec: the mutable bid state of a Lot (§3) — current
highest bid amount (starting at the configured floor) and the identifier of
the current highest bidder (nullable until the first bid).  The `Lot` struct
of lib.rs records only the amount; the bidder field is taken from the spec's
data model. -/
structure LotState where
  highest_bid : Nat
  highest_bidder : Option Nat
deriving DecidableEq

/-- Modelled from the spec: the Bid Validator (§4.1), which is not under src/.
Rules in order: Reject `AuctionNotOpen` if the Auction state is not LotOpen;
Reject `BidTooLow` if the proposed amount is at most the current highest bid
(strict increase required, ties favour the existing leader); otherwise
Accept.  Pure decision function, no side effects. -/
def validateBid (lotState : LotState) (auctionState : bramble.AuctionState)
    (_bidder : Nat) (amount : Nat) : BidDecision :=
  if auctionState ≠ .LotOpen then .Reject .AuctionNotOpen
  else if amount ≤ lotState.highest_bid then .Reject .BidTooLow
  else .Accept

/-- Modelled from the spec: the commit performed by the Auction Actor on an
Accepted bid — "caller (Auction Actor) commits the new highest bid/bidder"
(§4.1). -/
def commitBid (_l : LotState) (bidder : Nat) (amount : Nat) : LotState :=
  { highest_bid := amount, highest_bidder := some bidder }

/-- Modelled from the spec: one bid processed against one Lot — validate, and
commit exactly when the validator Accepts; a rejected bid leaves the Lot
unchanged. -/
def applyBid (l : LotState) (auctionState : bramble.AuctionState)
    (bidder : Nat) (amount : Nat) : LotState × BidDecision :=
  match validateBid l auctionState bidder amount with
  | .Accept => (commitBid l bidder amount, .Accept)
  | d => (l, d)

/-- Modelled from the spec: a sequence of bids `(bidder, amount)` processed in
order against one open Lot, returning the final Lot state and the verdicts in
order. -/
def runBids : LotState → List (Nat × Nat) → LotState × List BidDecision
  | l, [] => (l, [])
  | l, (bidder, amount) :: bs =>
    let stepped := applyBid l .LotOpen bidder amount
    let rest := runBids stepped.1 bs
    (rest.1, stepped.2 :: rest.2)

/-- The amounts of exactly the Accepted bids of a sequence processed in order
against one open Lot. -/
def acceptedAmounts : LotState → List (Nat × Nat) → List Nat
  | _, [] => []
  | l, (bidder, amount) :: bs =>
    match validateBid l .LotOpen bidder amount with
    | .Accept => amount :: acceptedAmounts (commitBid l bidder amount) bs
    | _ => acceptedAmounts l bs

/-- The trace of recorded highest bids along a bid sequence: the initial
highest bid followed by the highest bid after each bid is processed. -/
def bidTrace : LotState → List (Nat × Nat) → List Nat
  | l, [] => [l.highest_bid]
  | l, (bidder, amount) :: bs =>
    l.highest_bid :: bidTrace (applyBid l .LotOpen bidder amount).1 bs

/-- Modelled from the spec: the messages of the Auction Actor's mailbox that
drive one Lot (§4.2, §6) — a place-bid command and the countdown timer's
tick. -/
inductive ActorMsg where
  | placeBid (bidder : Nat) (amount : Nat)
  | tick
deriving DecidableEq

/-- Whether a mailbox message is a place-bid command. -/
def ActorMsg.isBid : ActorMsg → Bool
  | .placeBid _ _ => true
  | .tick => false

/-- Modelled from the spec: the state owned by one Auction Actor that the
bid/tick ordering concerns — the current Lot's bid state, the remaining Lots,
and the lifecycle state. -/
structure ActorState where
  current_lot : LotState
  remaining_lots : List LotState
  state : bramble.AuctionState
deriving DecidableEq

/-- Modelled from the spec: the Auction Actor processing one mailbox message
(§4.2).  A place-bid is validated against the current Lot and lifecycle state
and committed when Accepted (the verdict is emitted); a tick in LotOpen closes
the current Lot — advancing to the next Lot when more remain, else moving to
Completed; a tick in any other state is a no-op (a superseded timer fire). -/
def actorStep (s : ActorState) (m : ActorMsg) :
    ActorState × Option BidDecision :=
  match m with
  | .placeBid bidder amount =>
    match validateBid s.current_lot s.state bidder amount with
    | .Accept =>
      ({ s with current_lot := commitBid s.current_lot bidder amount },
       some .Accept)
    | d => (s, some d)
  | .tick =>
    if s.state = .LotOpen then
      match s.remaining_lots with
      | [] => ({ s with state := .Completed }, none)
      | next :: rest =>
        ({ current_lot := next, remaining_lots := rest, state := .LotOpen },
         none)
    else (s, none)

/-- Modelled from the spec: the Auction Actor draining its mailbox in arrival
order, one message at a time (single-writer discipline, §4.2/§5), collecting
the per-message verdicts. -/
def actorRun : ActorState → List ActorMsg → ActorState × List (Option BidDecision)
  | s, [] => (s, [])
  | s, m :: ms =>
    let stepped := actorStep s m
    let rest := actorRun stepped.1 ms
    (rest.1, stepped.2 :: rest.2)

/-- The verdict the Actor gives each mailbox message once the Auction has
completed: every place-bid is Rejected `AuctionNotOpen`, a tick is a no-op. -/
def completedReply : ActorMsg → Option BidDecision
  | .placeBid _ _ => some (.Reject .AuctionNotOpen)
  | .tick => none

theorem applyBid_highest_le (l : LotState) (bidder amount : Nat) :
    l.highest_bid ≤ (applyBid l .LotOpen bidder amount).1.highest_bid := by
  by_cases h : amount ≤ l.highest_bid
  · simp [applyBid, validateBid, h]
  · simp [applyBid, validateBid, h, commitBid]
    omega

theorem bidTrace_head (l : LotState) (bs : List (Nat × Nat)) :
    (bidTrace l bs).head? = some l.highest_bid := by
  cases bs with
  | nil => rfl
  | cons b bs => obtain ⟨bidder, amount⟩ := b; rfl

theorem bidTrace_chain (l : LotState) (bs : List (Nat × Nat)) :
    List.Chain' (· ≤ ·) (bidTrace l bs) := by
  induction bs generalizing l with
  | nil => simp [bidTrace]
  | cons b bs ih =>
    obtain ⟨bidder, amount⟩ := b
    rw [bidTrace, List.chain'_cons']
    refine ⟨?_, ih _⟩
    intro y hy
    rw [bidTrace_head, Option.mem_def, Option.some_inj] at hy
    exact hy ▸ applyBid_highest_le l bidder amount

theorem runBids_highest (l : LotState) (bs : List (Nat × Nat)) :
    (runBids l bs).1.highest_bid =
      (acceptedAmounts l bs).foldl max l.highest_bid := by
  induction bs generalizing l with
  | nil => rfl
  | cons b bs ih =>
    obtain ⟨bidder, amount⟩ := b
    by_cases h : amount ≤ l.highest_bid
    · simp [runBids, acceptedAmounts, applyBid, validateBid, h, ih]
    · simp [runBids, acceptedAmounts, applyBid, validateBid, h, commitBid, ih]
      have hmax : max l.highest_bid amount = amount :=
        Nat.max_eq_right (Nat.le_of_lt (Nat.lt_of_not_le h))
      rw [hmax]

/-- Claim C1: for every Lot bid state and every proposed bid whose amount is
at most the Lot's current highest bid, the Bid Validator (with the Auction in
the LotOpen state, the state in which rule 2 governs) returns
Reject(BidTooLow), and applying the bid leaves the Lot — in particular the
recorded leader — unchanged, so a tie never replaces the existing leader. -/
theorem validateBid_low_rejected (l : LotState) (bidder amount : Nat)
    (h : amount ≤ l.highest_bid) :
    validateBid l .LotOpen bidder amount = .Reject .BidTooLow ∧
    (applyBid l .LotOpen bidder amount).1 = l := by
  constructor
  · simp [validateBid, h]
  · simp [applyBid, validateBid, h]

/-- Claim C1 witness: a tie bid of 10 against a highest bid of 10 held by
bidder 1 is Rejected(BidTooLow) and bidder 1 stays the leader. -/
theorem validateBid_low_rejected_witness :
    10 ≤ (⟨10, some 1⟩ : LotState).highest_bid ∧
    (validateBid ⟨10, some 1⟩ .LotOpen 2 10 = .Reject .BidTooLow ∧
     (applyBid ⟨10, some 1⟩ .LotOpen 2 10).1 = ⟨10, some 1⟩) :=
  ⟨by decide, validateBid_low_rejected ⟨10, some 1⟩ 2 10 (by decide)⟩

/-- Claim C2: for every sequence of bids on one Lot, the trace of recorded
highest bids is monotonically non-decreasing, and the final recorded highest
bid equals the maximum of the initial highest bid (the configured floor) and
all Accepted bid amounts. -/
theorem lot_highest_monotone_max (l : LotState) (bs : List (Nat × Nat)) :
    List.Chain' (· ≤ ·) (bidTrace l bs) ∧
    (runBids l bs).1.highest_bid =
      (acceptedAmounts l bs).foldl max l.highest_bid :=
  ⟨bidTrace_chain l bs, runBids_highest l bs⟩

theorem actorRun_append (s : ActorState) (ms1 ms2 : List ActorMsg) :
    actorRun s (ms1 ++ ms2) =
      ((actorRun (actorRun s ms1).1 ms2).1,
       (actorRun s ms1).2 ++ (actorRun (actorRun s ms1).1 ms2).2) := by
  induction ms1 generalizing s with
  | nil => simp [actorRun]
  | cons m ms ih => simp [actorRun, ih]

theorem actorStep_bid_preserves (s : ActorState) (bidder amount : Nat) :
    (actorStep s (.placeBid bidder amount)).1.state = s.state ∧
    (actorStep s (.placeBid bidder amount)).1.remaining_lots =
      s.remaining_lots := by
  rcases hv : validateBid s.current_lot s.state bidder amount with _ | r <;>
    simp [actorStep, hv]

theorem bids_keep_open (s : ActorState) (ms : List ActorMsg)
    (h1 : s.state = .LotOpen) (hb : ∀ m ∈ ms, m.isBid = true) :
    (actorRun s ms).1.state = .LotOpen ∧
    (actorRun s ms).1.remaining_lots = s.remaining_lots := by
  induction ms generalizing s with
  | nil => exact ⟨h1, rfl⟩
  | cons m ms ih =>
    cases m with
    | tick =>
      have := hb .tick (List.mem_cons_self _ _)
      simp [ActorMsg.isBid] at this
    | placeBid bidder amount =>
      have hpres := actorStep_bid_preserves s bidder amount
      have hrec := ih (actorStep s (.placeBid bidder amount)).1
        (hpres.1.trans h1) (fun x hx => hb x (List.mem_cons_of_mem _ hx))
      simp only [actorRun]
      exact ⟨hrec.1, hrec.2.trans hpres.2⟩

theorem completed_absorbs (s : ActorState) (ms : List ActorMsg)
    (h : s.state = .Completed) :
    actorRun s ms = (s, ms.map completedReply) := by
  induction ms generalizing s with
  | nil => rfl
  | cons m ms ih =>
    cases m with
    | placeBid bidder amount =>
      have hv : validateBid s.current_lot s.state bidder amount =
          .Reject .AuctionNotOpen := by
        simp [validateBid, h]
      simp [actorRun, actorStep, hv, ih s h, completedReply]
    | tick =>
      simp [actorRun, actorStep, h, ih s h, completedReply]

/-- Claim C3: with one Auction Actor draining its mailbox in order from a
LotOpen state on the final Lot, every place-bid that precedes the timer tick
is decided while the Lot is still open (the state after those bids is still
LotOpen, so each was applied before the Lot closed), the tick closes the
Auction, and every place-bid that follows the tick is Rejected(AuctionNotOpen)
— its verdict is `completedReply`, which maps every place-bid to
Reject(AuctionNotOpen). -/
theorem bid_tick_ordering (s : ActorState) (bids1 ms2 : List ActorMsg)
    (h1 : s.state = .LotOpen) (h2 : s.remaining_lots = [])
    (hb : ∀ m ∈ bids1, m.isBid = true) :
    (actorRun s bids1).1.state = .LotOpen ∧
    (actorRun s (bids1 ++ ActorMsg.tick :: ms2)).2 =
      (actorRun s bids1).2 ++ none :: ms2.map completedReply ∧
    (actorRun s (bids1 ++ ActorMsg.tick :: ms2)).1.state = .Completed := by
  obtain ⟨hopen, hrem⟩ := bids_keep_open s bids1 h1 hb
  have htick : actorStep (actorRun s bids1).1 .tick =
      ({ (actorRun s bids1).1 with state := .Completed }, none) := by
    simp [actorStep, hopen, hrem.trans h2]
  have habs := completed_absorbs
    ({ (actorRun s bids1).1 with state := .Completed }) ms2 rfl
  have hrun : actorRun (actorRun s bids1).1 (ActorMsg.tick :: ms2) =
      (({ (actorRun s bids1).1 with state := .Completed } : ActorState),
       none :: ms2.map completedReply) := by
    simp only [actorRun, htick, habs]
  rw [actorRun_append s bids1 (ActorMsg.tick :: ms2), hrun]
  exact ⟨hopen, rfl, rfl⟩

/-- Claim C3 witness: from a single open Lot with highest bid 10, a bid of 15
before the tick is Accepted while the Lot is open, the tick completes the
Auction, and a bid of 20 after the tick is Rejected(AuctionNotOpen). -/
theorem bid_tick_ordering_witness :
    ((⟨⟨10, none⟩, [], .LotOpen⟩ : ActorState).state = .LotOpen ∧
     (∀ m ∈ [ActorMsg.placeBid 1 15], m.isBid = true)) ∧
    ((actorRun ⟨⟨10, none⟩, [], .LotOpen⟩ [ActorMsg.placeBid 1 15]).1.state =
       .LotOpen ∧
     (actorRun ⟨⟨10, none⟩, [], .LotOpen⟩
        ([ActorMsg.placeBid 1 15] ++ ActorMsg.tick ::
          [ActorMsg.placeBid 2 20])).2 =
       (actorRun ⟨⟨10, none⟩, [], .LotOpen⟩ [ActorMsg.placeBid 1 15]).2 ++
         none :: [ActorMsg.placeBid 2 20].map completedReply ∧
     (actorRun ⟨⟨10, none⟩, [], .LotOpen⟩
        ([ActorMsg.placeBid 1 15] ++ ActorMsg.tick ::
          [ActorMsg.placeBid 2 20])).1.state = .Completed) :=
  ⟨⟨rfl, by decide⟩,
   bid_tick_ordering ⟨⟨10, none⟩, [], .LotOpen⟩ [ActorMsg.placeBid 1 15]
     [ActorMsg.placeBid 2 20] rfl rfl (by decide)⟩

/-- Claim C4 evidence: `host_handler` answers every host-auction command with
the same envelope, carrying the constant identifier "auction id" — two
distinct host-auction requests receive the same identifier, and no Auction is
created (the handler receives and touches no server state). -/
theorem host_handler_constant_id (sendOk1 sendOk2 : Bool)
    (h1 h2 : bramble.HostAuction) :
    (host_handler sendOk1 h1).1 = (host_handler sendOk2 h2).1 ∧
    (host_handler sendOk1 h1).1 =
      [{ message := some (.Auction
           { action := some (.HostAuction { auction_id := "auction id" }) }) }] := by
  cases sendOk1 <;> cases sendOk2 <;> simp [host_handler]

/-- Claim C5 evidence: a host-cancel action — from any sender, host or not —
drives `auction_handler` into the catch-all arm, whose `todo!()` panics
instead of returning Reject(NotHost). -/
theorem auction_handler_cancel_todo (sendOk : Bool) (c : bramble.HostCancel) :
    auction_handler sendOk { action := some (.HostCancel c) } =
      .todoUnimplemented := rfl

/-- Claim C6 counterexample: a text (non-binary, non-close) frame makes the
receive loop return, terminating the connection, although the frame is not an
envelope decode failure — refuting "the connection is terminated if and only
if the frame fails to decode as an envelope at all". -/
theorem handle_frame_text_terminates :
    (handle_frame true Frame.nonBinary).1 = LoopOutcome.terminate ∧
    Frame.isDecodeFailure Frame.nonBinary = false :=
  ⟨rfl, rfl⟩

/-- Claim C6 as amended: a frame that decodes to an envelope with an absent
message kind is dropped and the loop continues; and the connection is
terminated exactly when the frame fails to decode (a panic of the decoding
`.expect`), the frame is non-binary and non-close, the transport receive
errors, or a handler's response send fails. -/
theorem handle_frame_lifecycle (sendOk : Bool) (f : Frame) :
    (∀ e, f = Frame.binaryOk e → e.message_type = none →
      handle_frame sendOk f = (LoopOutcome.continueOpen, [])) ∧
    ((handle_frame sendOk f).1 ≠ LoopOutcome.continueOpen ↔
      (f.isDecodeFailure = true ∨ f = Frame.nonBinary ∨ f = Frame.recvError ∨
       (sendOk = false ∧
        ∃ e m, f = Frame.binaryOk e ∧ e.message_type = some m))) := by
  constructor
  · rintro e rfl hm
    simp [handle_frame, hm]
  · cases f with
    | binaryOk e =>
      obtain ⟨mt⟩ := e
      cases mt with
      | none => simp [handle_frame, Frame.isDecodeFailure]
      | some m =>
        cases m <;> cases sendOk <;>
          simp [handle_frame, Frame.isDecodeFailure, echo_handler,
            heartbeat_handler]
    | binaryBad => simp [handle_frame, Frame.isDecodeFailure]
    | close => simp [handle_frame, Frame.isDecodeFailure]
    | nonBinary => simp [handle_frame, Frame.isDecodeFailure]
    | recvError => simp [handle_frame, Frame.isDecodeFailure]

/-- Claim C6 amended-claim witness: an envelope with no message kind is
dropped and the connection stays open. -/
theorem handle_frame_lifecycle_witness :
    handle_frame true (Frame.binaryOk { message_type := none }) =
      (LoopOutcome.continueOpen, []) :=
  (handle_frame_lifecycle true (Frame.binaryOk { message_type := none })).1
    { message_type := none } rfl rfl

/-- Claim C7: handling an echo or heartbeat request sends exactly one response
message to the requesting socket and leaves the entire server state — auction
map, uuid context, every Auction — unchanged (the handlers receive no
reference to it). -/
theorem diagnostic_dispatch_stateless (st : ServerState) (sendOk : Bool)
    (m : bramble.MessageType) :
    (diagnostic_dispatch st sendOk m).1 = st ∧
    (diagnostic_dispatch st sendOk m).2.1.length = 1 := by
  cases m <;> cases sendOk <;>
    simp [diagnostic_dispatch, echo_handler, heartbeat_handler]

/-- Claim C8: every `bramble::Auction` message whose action is anything other
than `Some(HostAuction(..))` — an absent action, a host-cancel, a place-bid or
a snapshot — drives `auction_handler` into the unconditional `todo!()` arm. -/
theorem auction_handler_non_host_todo (sendOk : Bool)
    (a : Option bramble.Action)
    (h : ∀ ha : bramble.HostAuction, a ≠ some (.HostAuction ha)) :
    auction_handler sendOk { action := a } = .todoUnimplemented := by
  match a with
  | none => rfl
  | some (.HostAuction ha) => exact absurd rfl (h ha)
  | some (.HostCancel c) => rfl
  | some (.PlaceBid b) => rfl
  | some .Snapshot => rfl

/-- Claim C8 witness: an auction message with an absent action reaches the
`todo!()` arm. -/
theorem auction_handler_non_host_todo_witness :
    (∀ ha : bramble.HostAuction,
      (none : Option bramble.Action) ≠ some (.HostAuction ha)) ∧
    auction_handler true { action := none } = .todoUnimplemented :=
  ⟨fun _ hc => Option.noConfusion hc,
   auction_handler_non_host_todo true none (fun _ hc => Option.noConfusion hc)⟩

/-- Claim C9: for every echo request, `echo_handler` sends back exactly one
envelope wrapping an echo message whose `message` field equals the request's
`message` field, and returns `Ok` if and only if the socket send succeeds. -/
theorem echo_handler_roundtrip (sendOk : Bool)
    (request : bramble.EchoMessage) :
    (echo_handler sendOk request).1 =
      [{ message_type :=
           some (.EchoMessage { message := request.message }) }] ∧
    ((echo_handler sendOk request).2 = .ok () ↔ sendOk = true) := by
  cases sendOk <;> simp [echo_handler]

/-- Claim C10: for every heartbeat request, the response's `client_id` is
"client 0" when the request's `client_id` is empty and the request's
`client_id` otherwise, and the response's `timestamp` is always the constant
"test timestamp"; exactly one such response envelope is sent. -/
theorem heartbeat_handler_defaulting (sendOk : Bool)
    (request : bramble.HeartbeatMessage) :
    (heartbeat_handler sendOk request).1 =
      [{ message_type := some (.HeartbeatMessage
           { client_id :=
               if request.client_id = "" then "client 0"
               else request.client_id,
             timestamp := "test timestamp" }) }] := by
  cases sendOk <;> simp [heartbeat_handler]

end BrambleWars
